import Mathlib

/-!
Shallow embedding of the signal-to-lead conversion pipeline of the
`b2b-lead-intelligence-for-hpcl` backend:

* `backend/app/ml/product_inference.py`    — `ProductInferenceEngine`
* `backend/app/services/lead_processor.py` — `LeadProcessor`

Python strings are Lean `String`s, Python `None`-able values are `Option`,
Python floats are exact rationals `ℚ` (the scores in this code are small
decimal weights), SQLAlchemy rows are Lean structures, and the database
session is explicit state (`DB`) threaded through the processor.  Python
exceptions are `Except`, carrying the committed database state at the point
of failure; persistence failures are injected through a `Fail` oracle that
says which `commit()` calls raise.
-/

namespace HPCL

/-- Python `str.lower()` (ASCII), structurally recursive. -/
def pyLower (s : String) : String := ⟨s.data.map Char.toLower⟩

/-- Python `str.strip()`: drop leading and trailing whitespace. -/
def pyStrip (s : String) : String :=
  ⟨((s.data.dropWhile Char.isWhitespace).reverse.dropWhile Char.isWhitespace).reverse⟩

/-- Python `str.replace(' ', '')`: remove every space character. -/
def pyRemoveSpaces (s : String) : String := ⟨s.data.filter (fun c => c != ' ')⟩

/-- Python `needle in hay` substring test. -/
def strContains (hay needle : String) : Bool :=
  hay.data.tails.any (fun t => needle.data.isPrefixOf t)

/-- Python truthiness of an optional string: `None` and `""` are falsy. -/
def pyTruthy : Option String → Bool
  | none => false
  | some s => s ≠ ""

/-- Python `a or b` on optional strings: returns `a` if truthy, else `b`. -/
def pyOr (a b : Option String) : Option String :=
  if pyTruthy a then a else b

/-- A single-quote character, used in the rationale strings built by the code. -/
def sq : String := String.singleton (Char.ofNat 39)

/-! ### Product taxonomy (`ProductInferenceEngine.__init__.product_keywords`) -/

structure ProductData where
  keywords : List String
  equipment : List String
  industries : List String
deriving Repr, DecidableEq

/-- The embedded HPCL product catalog, in declaration (insertion) order. -/
def product_keywords : List (String × ProductData) :=
  [ ("FO", ⟨["furnace oil", "fuel oil", "fo ", "heavy fuel", "boiler fuel", "industrial fuel"],
      ["boiler", "furnace", "kiln", "dryer", "thermal power"],
      ["power", "textile", "ceramic", "steel", "cement"]⟩),
    ("HSD", ⟨["high speed diesel", "hsd", "diesel", "auto diesel"],
      ["generator", "genset", "diesel generator", "dgset", "vehicle", "truck"],
      ["logistics", "transport", "construction", "mining", "power backup"]⟩),
    ("LDO", ⟨["light diesel oil", "ldo", "light fuel"],
      ["furnace", "dryer", "small boiler"],
      ["small industry", "tea estate", "food processing"]⟩),
    ("LSHS", ⟨["low sulphur heavy stock", "lshs", "low sulfur fuel", "marine fuel"],
      ["ship", "vessel", "marine engine"],
      ["shipping", "marine", "port"]⟩),
    ("SKO", ⟨["superior kerosene oil", "sko", "kerosene"],
      ["burner", "lamp", "heater"],
      ["domestic", "rural", "heating"]⟩),
    ("Hexane", ⟨["hexane", "n-hexane", "solvent extraction"],
      ["extraction unit", "solvent plant"],
      ["edible oil", "vegetable oil", "oil extraction", "solvent extraction"]⟩),
    ("Solvent 1425", ⟨["solvent 1425", "mineral spirits", "paint solvent"],
      ["paint plant", "coating unit"],
      ["paint", "coating", "ink", "resin"]⟩),
    ("Mineral Turpentine Oil", ⟨["mineral turpentine", "mto", "turpentine oil", "white spirit"],
      ["paint mixer", "thinner unit"],
      ["paint", "varnish", "polish", "cleaning"]⟩),
    ("Jute Batch Oil", ⟨["jute batching oil", "jbo", "jute oil", "batching oil"],
      ["jute mill", "textile machinery"],
      ["jute", "textile", "jute processing"]⟩),
    ("Bitumen", ⟨["bitumen", "asphalt", "road tar", "paving material"],
      ["paver", "road roller", "hot mix plant"],
      ["road construction", "highway", "infrastructure", "roofing"]⟩),
    ("Marine Bunker Fuel", ⟨["bunker fuel", "marine diesel", "ship fuel", "bunker oil"],
      ["ship", "vessel", "tanker", "cargo ship"],
      ["shipping", "marine", "port operations"]⟩),
    ("Sulphur", ⟨["sulphur", "sulfur", "molten sulphur", "elemental sulfur"],
      ["chemical reactor", "fertilizer plant"],
      ["fertilizer", "chemical", "acid manufacturing"]⟩),
    ("Propylene", ⟨["propylene", "propene", "polypropylene feedstock"],
      ["polymerization unit", "chemical reactor"],
      ["petrochemical", "plastic", "polymer"]⟩) ]

/-! ### Classifier (`ProductInferenceEngine.analyze_text` and friends) -/

structure Recommendation where
  product : String
  confidence : ℚ
  reason : String
deriving Repr, DecidableEq

structure AnalysisResult where
  recommended_products : List Recommendation
  detected_keywords : List String
  detected_equipment : List String
  intent_strength : String
  urgency_score : ℚ
deriving Repr, DecidableEq

/-- Score plus rationale accumulated for one product (`product_scores` values). -/
structure ScoreData where
  score : ℚ
  reasons : List String
deriving Repr, DecidableEq

/-- One `for term in data[...]` loop of `analyze_text`: accumulate `inc` per
matched term, the matched terms, and one rationale line per match. -/
def scanTier (textLower : String) (terms : List String) (inc : ℚ)
    (reasonOf : String → String) : ℚ × List String × List String :=
  terms.foldl
    (fun acc term =>
      if strContains textLower (pyLower term) then
        (acc.1 + inc, acc.2.1 ++ [term], acc.2.2 ++ [reasonOf term])
      else acc)
    (0, [], [])

/-- Banker's rounding to an integer (Python `round`). -/
def bRound (q : ℚ) : ℤ :=
  if q - ⌊q⌋ < 1/2 then ⌊q⌋
  else if 1/2 < q - ⌊q⌋ then ⌊q⌋ + 1
  else if ⌊q⌋ % 2 = 0 then ⌊q⌋ else ⌊q⌋ + 1

/-- Python `round(q, 2)`. -/
def roundTo2 (q : ℚ) : ℚ := (bRound (100 * q) : ℚ) / 100

/-- Stable insert for a descending sort on the accumulated product score. -/
def insertDesc (x : String × ScoreData) :
    List (String × ScoreData) → List (String × ScoreData)
  | [] => [x]
  | y :: ys => if x.2.score ≥ y.2.score then x :: y :: ys else y :: insertDesc x ys

/-- Python `sorted(..., key=lambda x: x[1]["score"], reverse=True)`:
a stable descending sort. -/
def sortDesc : List (String × ScoreData) → List (String × ScoreData)
  | [] => []
  | x :: xs => insertDesc x (sortDesc xs)

/-- `ProductInferenceEngine._calculate_intent_strength` (input already lowercased). -/
def calculate_intent_strength (text : String) : String :=
  let high_intent_keywords := ["tender", "rfq", "quotation", "procurement", "bid", "supply required"]
  let medium_intent_keywords := ["expansion", "new plant", "commissioning", "setting up"]
  let high_count := (high_intent_keywords.filter (fun kw => strContains text kw)).length
  let medium_count := (medium_intent_keywords.filter (fun kw => strContains text kw)).length
  if high_count > 0 then "high"
  else if medium_count > 0 then "medium"
  else "low"

/-- `ProductInferenceEngine._calculate_urgency` (input already lowercased). -/
def calculate_urgency (text : String) : ℚ :=
  let urgency_keywords : List (String × ℚ) :=
    [("immediate", 1), ("urgent", 9/10), ("asap", 9/10), ("this month", 8/10),
     ("tender", 7/10), ("deadline", 7/10), ("soon", 6/10), ("upcoming", 5/10)]
  urgency_keywords.foldl
    (fun m kv => if strContains text kv.1 then max m kv.2 else m) 0

/-- The per-product body of the `for product, data in self.product_keywords.items()`
loop: three tier scans, the summed score, and the concatenated rationale lines. -/
def analyzeProduct (textLower : String) (data : ProductData) :
    ℚ × List String × List String × List String :=
  let kw := scanTier textLower data.keywords (4/10)
    (fun k => "Mentioned " ++ sq ++ k ++ sq)
  let eq := scanTier textLower data.equipment (3/10)
    (fun e => "Equipment: " ++ sq ++ e ++ sq ++ " detected")
  let ind := scanTier textLower data.industries (2/10)
    (fun i => "Industry: " ++ sq ++ i ++ sq ++ " match")
  (kw.1 + eq.1 + ind.1, kw.2.1, eq.2.1, kw.2.2 ++ eq.2.2 ++ ind.2.2)

/-- The accumulator update of `analyze_text`'s product loop: record the product
with its capped score and rationale when the score is non-zero, and extend the
global `detected_keywords` / `detected_equipment` accumulators. -/
def analyzeStep (textLower : String)
    (acc : List (String × ScoreData) × List String × List String)
    (p : String × ProductData) :
    List (String × ScoreData) × List String × List String :=
  let (score, kwMatched, eqMatched, reasons) := analyzeProduct textLower p.2
  let scores := if score > 0 then acc.1 ++ [(p.1, ⟨min score 1, reasons⟩)] else acc.1
  (scores, acc.2.1 ++ kwMatched, acc.2.2 ++ eqMatched)

/-- `ProductInferenceEngine.analyze_text`.  `detected_keywords` and
`detected_equipment` pass through `list(set(...))` in the code, whose order is
unspecified; we model it with `List.dedup`. -/
def analyze_text (text : String) : AnalysisResult :=
  let textLower := pyLower text
  let folded := product_keywords.foldl (analyzeStep textLower) ([], [], [])
  let sorted_products := (sortDesc folded.1).take 3
  let recommended_products := sorted_products.map
    (fun pd => Recommendation.mk pd.1 (roundTo2 pd.2.score) (String.intercalate "; " pd.2.reasons))
  { recommended_products := recommended_products
    detected_keywords := folded.2.1.dedup
    detected_equipment := folded.2.2.dedup
    intent_strength := calculate_intent_strength textLower
    urgency_score := calculate_urgency textLower }

/-- `ProductInferenceEngine.calculate_lead_score`. -/
def calculate_lead_score (analysis : AnalysisResult) (company_size : String) : ℚ :=
  let confidence_score : ℚ :=
    if analysis.recommended_products.length ≠ 0 then
      ((analysis.recommended_products.map (·.confidence)).sum
        / analysis.recommended_products.length) * 40
    else 0
  let intent_score : ℚ :=
    if analysis.intent_strength = "high" then 30
    else if analysis.intent_strength = "medium" then 20
    else if analysis.intent_strength = "low" then 10
    else 10
  let urgency_score : ℚ := analysis.urgency_score * 20
  let size_score : ℚ :=
    if company_size = "enterprise" then 10
    else if company_size = "large" then 8
    else if company_size = "medium" then 6
    else if company_size = "small" then 4
    else 6
  roundTo2 (min (confidence_score + intent_score + urgency_score + size_score) 100)

/-- `ProductInferenceEngine.extract_location`. -/
def extract_location (text : String) : List String :=
  let states :=
    ["Maharashtra", "Gujarat", "Tamil Nadu", "Karnataka", "Delhi", "Uttar Pradesh",
     "West Bengal", "Rajasthan", "Madhya Pradesh", "Andhra Pradesh", "Telangana",
     "Kerala", "Punjab", "Haryana", "Bihar", "Odisha", "Assam", "Jharkhand"]
  let textLower := pyLower text
  states.filter (fun st => strContains textLower (pyLower st))

/-! ### `fuzzywuzzy.fuzz.ratio` (difflib `SequenceMatcher` similarity) -/

/-- Length of the longest common prefix of two character lists. -/
def commonPrefixLen : List Char → List Char → Nat
  | a :: as, b :: bs => if a = b then commonPrefixLen as bs + 1 else 0
  | _, _ => 0

/-- `SequenceMatcher.find_longest_match` over the whole ranges: the longest
matching block `(i, j, k)`, preferring the earliest start in `a`, then in `b`
(no junk heuristics apply at these string lengths). -/
def longestMatch (a b : List Char) : Nat × Nat × Nat :=
  (List.range a.length).foldl
    (fun best i =>
      (List.range b.length).foldl
        (fun best j =>
          let k := commonPrefixLen (a.drop i) (b.drop j)
          if k > best.2.2 then (i, j, k) else best)
        best)
    (0, 0, 0)

/-- Total size of the matching blocks (`SequenceMatcher.get_matching_blocks`):
recursively take the longest match and recurse left and right of it.  The fuel
argument (any value ≥ `a.length + b.length` suffices) makes termination obvious. -/
def matchTotal : Nat → List Char → List Char → Nat
  | 0, _, _ => 0
  | fuel + 1, a, b =>
    let m := longestMatch a b
    if m.2.2 = 0 then 0
    else
      matchTotal fuel (a.take m.1) (b.take m.2.1) + m.2.2 +
        matchTotal fuel (a.drop (m.1 + m.2.2)) (b.drop (m.2.1 + m.2.2))

/-- Nearest integer to `num / den`, ties to even (Python `round` applied by
`fuzzywuzzy.utils.intr`). -/
def roundRatio (num den : Nat) : Nat :=
  let q := num / den
  let r := num % den
  if 2 * r < den then q
  else if den < 2 * r then q + 1
  else if q % 2 = 0 then q else q + 1

/-- `fuzz.ratio(s1, s2)`: `int(round(100 * 2M / T))` where `M` is the total
matched length and `T` the total length; by difflib convention the ratio of two
empty strings is 1.0. -/
def fuzzRatio (s1 s2 : String) : Nat :=
  let a := s1.data
  let b := s2.data
  let t := a.length + b.length
  if t = 0 then 100
  else roundRatio (200 * matchTotal t a b) t

/-! ### Data model (SQLAlchemy rows, restricted to the fields the pipeline uses) -/

structure Company where
  id : Nat
  name : String
  normalized_name : Option String
  website : Option String
  industry : Option String
  city : Option String
  state : Option String
  company_size : Option String
deriving Repr, DecidableEq

structure Source where
  id : Nat
  domain : String
  url : String
  category : String
  trust_score : ℚ
  is_active : Bool
  last_crawled : Option Nat
deriving Repr, DecidableEq

structure Officer where
  id : Nat
  name : String
  email : String
  territory_state : Option String
  notification_enabled : Bool
  is_active : Bool
deriving Repr, DecidableEq

structure Lead where
  id : Nat
  company_id : Nat
  source_id : Nat
  signal_text : String
  signal_url : Option String
  signal_date : Nat
  signal_type : String
  detected_keywords : List String
  detected_equipment : List String
  detected_locations : List String
  recommended_products : List Recommendation
  lead_score : ℚ
  intent_strength : String
  urgency_days : Nat
  confidence : ℚ
  assigned_officer_id : Option Nat
  territory_state : Option String
  status : String
  next_action : String
deriving Repr, DecidableEq

/-- The committed database state (timestamps abstracted to a `Nat` clock). -/
structure DB where
  companies : List Company
  sources : List Source
  officers : List Officer
  leads : List Lead
  nextCompanyId : Nat
  nextSourceId : Nat
  nextLeadId : Nat
deriving Repr, DecidableEq

/-- The input mapping handed to `process_signal` (required keys are plain
fields, optional keys are `Option`). -/
structure SignalData where
  company_name : String
  signal_text : String
  signal_url : Option String
  signal_type : Option String
  source_domain : String
  industry : Option String
  location : Option String
  state : Option String
  website : Option String
deriving Repr, DecidableEq

/-- Persistence-failure oracle: which of the pipeline's `commit()` sites raise.
`company` is the commit that creates a new company, `source` the source
upsert's commits, `lead` the final lead insert's commit. -/
structure Fail where
  company : Bool
  source : Bool
  lead : Bool
deriving Repr, DecidableEq

def noFail : Fail := ⟨false, false, false⟩

/-- A raised persistence error: message plus the committed state at that point
(a subsequent `rollback()` discards only uncommitted changes, so this is the
state the session is left with). -/
abbrev DbErr := String × DB

instance {ε α : Type} [DecidableEq ε] [DecidableEq α] : DecidableEq (Except ε α) :=
  fun a b =>
    match a, b with
    | .error x, .error y =>
      if h : x = y then isTrue (congrArg Except.error h)
      else isFalse (fun hc => h (Except.error.injEq .. ▸ hc))
    | .ok x, .ok y =>
      if h : x = y then isTrue (congrArg Except.ok h)
      else isFalse (fun hc => h (Except.ok.injEq .. ▸ hc))
    | .error _, .ok _ => isFalse (fun hc => Except.noConfusion hc)
    | .ok _, .error _ => isFalse (fun hc => Except.noConfusion hc)

/-! ### `LeadProcessor` -/

/-- The exact-match filter of `_find_or_create_company`:
`Company.name == company_name`. -/
def exactNamePred (signal : SignalData) (c : Company) : Bool :=
  c.name == pyStrip signal.company_name

/-- The fuzzy-match test of `_find_or_create_company`:
`fuzz.ratio(normalized_name, existing.normalized_name or '') > 85`. -/
def fuzzyMatchPred (signal : SignalData) (e : Company) : Bool :=
  decide (85 < fuzzRatio (pyRemoveSpaces (pyLower (pyStrip signal.company_name)))
    (e.normalized_name.getD ""))

/-- The `Company(...)` row created by `_find_or_create_company` when no match
is found. -/
def newCompany (db : DB) (signal : SignalData) : Company :=
  { id := db.nextCompanyId
    name := pyStrip signal.company_name
    normalized_name := some (pyRemoveSpaces (pyLower (pyStrip signal.company_name)))
    website := signal.website
    industry := signal.industry
    city := signal.location
    state := signal.state
    company_size := none }

/-- The repository state after `_find_or_create_company` creates and commits a
new company. -/
def createdDB (db : DB) (signal : SignalData) : DB :=
  { db with companies := db.companies ++ [newCompany db signal],
            nextCompanyId := db.nextCompanyId + 1 }

/-- `LeadProcessor._find_or_create_company`. -/
def find_or_create_company (db : DB) (signal : SignalData) (fail : Fail) :
    Except DbErr (Option Company × DB) :=
  let company_name := pyStrip signal.company_name
  if company_name = "" then .ok (none, db)
  else
    match db.companies.find? (exactNamePred signal) with
    | some company => .ok (some company, db)
    | none =>
      match db.companies.find? (fuzzyMatchPred signal) with
      | some existing => .ok (some existing, db)
      | none =>
        if fail.company then .error ("commit failed", db)
        else
          .ok (some (newCompany db signal), createdDB db signal)

/-- `LeadProcessor._get_or_create_source` (create if unseen, then stamp
`last_crawled`; both commits are covered by the `fail.source` flag). -/
def get_or_create_source (db : DB) (domain : String) (fail : Fail) (now : Nat) :
    Except DbErr (Source × DB) :=
  if fail.source then .error ("commit failed", db)
  else
    match db.sources.find? (fun s => s.domain == domain) with
    | some source =>
      let updated := { source with last_crawled := some now }
      .ok (updated,
        { db with sources := db.sources.map (fun s => if s.id = source.id then updated else s) })
    | none =>
      let source : Source :=
        { id := db.nextSourceId
          domain := domain
          url := "https://" ++ domain
          category := "unknown"
          trust_score := 1/2
          is_active := true
          last_crawled := some now }
      .ok (source,
        { db with sources := db.sources ++ [source],
                  nextSourceId := db.nextSourceId + 1 })

/-- `LeadProcessor._assign_officer`. -/
def assign_officer (db : DB) (state : String) : Option Officer :=
  match db.officers.find? (fun o => o.territory_state == some state && o.is_active) with
  | some officer => some officer
  | none => db.officers.find? (fun o => o.is_active)

/-- `LeadProcessor._calculate_urgency_days`. -/
def calculate_urgency_days (urgency_score : ℚ) : Nat :=
  if urgency_score ≥ 8/10 then 7
  else if urgency_score ≥ 6/10 then 14
  else if urgency_score ≥ 4/10 then 30
  else 60

/-- `LeadProcessor._suggest_next_action`. -/
def suggest_next_action (analysis : AnalysisResult) : String :=
  if analysis.intent_strength = "high" then
    "Contact immediately - High intent signal detected (tender/procurement)"
  else if analysis.intent_strength = "medium" then
    "Schedule call within 3 days - Expansion/new facility signal"
  else
    "Research company and prepare pitch - General signal"

/-- Step 6 of `process_signal`:
`signal_data.get('state') or company.state or (locations[0] if locations else None)`. -/
def territory_state_of (sigState companyState : Option String)
    (locations : List String) : Option String :=
  pyOr sigState (pyOr companyState locations.head?)

/-- Python `company.company_size or "medium"`. -/
def company_size_of (company : Company) : String :=
  match company.company_size with
  | some s => if s = "" then "medium" else s
  | none => "medium"

/-- The `Lead(...)` row built by step 7 of `process_signal`, in terms of the
resolved company, the source, and the session state `db2` at that point. -/
def mkLead (now : Nat) (db2 : DB) (signal : SignalData)
    (company : Company) (source : Source) : Lead :=
  let analysis := analyze_text signal.signal_text
  let lead_score := calculate_lead_score analysis (company_size_of company)
  let locations := extract_location signal.signal_text
  let territory_state := territory_state_of signal.state company.state locations
  let assigned_officer :=
    if pyTruthy territory_state then assign_officer db2 (territory_state.getD "")
    else none
  { id := db2.nextLeadId
    company_id := company.id
    source_id := source.id
    signal_text := signal.signal_text
    signal_url := signal.signal_url
    signal_date := now
    signal_type := signal.signal_type.getD "unknown"
    detected_keywords := analysis.detected_keywords
    detected_equipment := analysis.detected_equipment
    detected_locations := locations
    recommended_products := analysis.recommended_products
    lead_score := lead_score
    intent_strength := analysis.intent_strength
    urgency_days := calculate_urgency_days analysis.urgency_score
    confidence := ((analysis.recommended_products.head?).map (·.confidence)).getD 0
    assigned_officer_id := assigned_officer.map (·.id)
    territory_state := territory_state
    status := "new"
    next_action := suggest_next_action analysis }

/-- The session state after the lead insert of step 7 commits. -/
def leadInsertedDB (now : Nat) (db2 : DB) (signal : SignalData)
    (company : Company) (source : Source) : DB :=
  { db2 with leads := db2.leads ++ [mkLead now db2 signal company source],
             nextLeadId := db2.nextLeadId + 1 }

/-- The `try:` body of `LeadProcessor.process_signal`; an `.error` is an
exception in flight, carrying the committed state at the raise site. -/
def process_signalE (now : Nat) (db : DB) (signal : SignalData) (fail : Fail) :
    Except DbErr (Option Nat × DB) :=
  match find_or_create_company db signal fail with
  | .error e => .error e
  | .ok (none, db1) => .ok (none, db1)
  | .ok (some company, db1) =>
    match get_or_create_source db1 signal.source_domain fail now with
    | .error e => .error e
    | .ok (source, db2) =>
      let analysis := analyze_text signal.signal_text
      if analysis.recommended_products = [] then .ok (none, db2)
      else if calculate_lead_score analysis (company_size_of company) < 30 then .ok (none, db2)
      else if fail.lead then .error ("commit failed", db2)
      else
        let lead := mkLead now db2 signal company source
        .ok (some lead.id, leadInsertedDB now db2 signal company source)

/-- `LeadProcessor.process_signal`: the `except Exception` boundary — every
internal failure is caught, the session is rolled back (pending changes are
discarded, leaving the committed state at the raise site), and `None` is
returned. -/
def process_signal (now : Nat) (db : DB) (signal : SignalData) (fail : Fail) :
    Option Nat × DB :=
  match process_signalE now db signal fail with
  | .ok r => r
  | .error (_, dbAtFailure) => (none, dbAtFailure)

structure BatchResult where
  processed : Nat
  created : Nat
  skipped : Nat
  errors : Nat
deriving Repr, DecidableEq

/-- `LeadProcessor.batch_process_signals`; each signal is paired with the
persistence-failure behaviour of the environment while it is processed. -/
def batch_process_signals (now : Nat) (db : DB)
    (signals : List (SignalData × Fail)) : BatchResult × DB :=
  signals.foldl
    (fun (acc : BatchResult × DB) sf =>
      let (results, db) := acc
      let results := { results with processed := results.processed + 1 }
      let (lead_id, db) := process_signal now db sf.1 sf.2
      match lead_id with
      | some _ => ({ results with created := results.created + 1 }, db)
      | none => ({ results with skipped := results.skipped + 1 }, db))
    (⟨0, 0, 0, 0⟩, db)

/-! ### Spec-side definitions

These follow the wording of the specification, to be compared with the
definitions translated from the source. -/

/-- The spec's high-intent lexical markers (procurement/tender/bid language). -/
def high_intent_markers : List String :=
  ["tender", "rfq", "quotation", "procurement", "bid", "supply required"]

/-- The spec's medium-intent markers (expansion/commissioning language). -/
def medium_intent_markers : List String :=
  ["expansion", "new plant", "commissioning", "setting up"]

/-- Spec: intent is `high` whenever any high-intent marker is *present*, else
`medium` when any expansion marker is present, else `low` — presence, not
count. -/
def spec_intent_strength (text : String) : String :=
  if high_intent_markers.any (fun kw => strContains text kw) then "high"
  else if medium_intent_markers.any (fun kw => strContains text kw) then "medium"
  else "low"

/-- The terms of one tier found in the text as case-insensitive substrings. -/
def matchedTerms (textLower : String) (terms : List String) : List String :=
  terms.filter (fun t => strContains textLower (pyLower t))

/-- Spec: 0.4 per distinct matched keyword + 0.3 per distinct equipment term
+ 0.2 per distinct industry term, capped at 1.0. -/
def spec_entry_score (textLower : String) (d : ProductData) : ℚ :=
  min ((4/10) * ((matchedTerms textLower d.keywords).dedup.length : ℚ)
      + (3/10) * ((matchedTerms textLower d.equipment).dedup.length : ℚ)
      + (2/10) * ((matchedTerms textLower d.industries).dedup.length : ℚ)) 1

/-- Spec: a rationale listing which keywords/equipment/industries matched. -/
def spec_entry_rationale (textLower : String) (d : ProductData) : List String :=
  (matchedTerms textLower d.keywords).map (fun k => "Mentioned " ++ sq ++ k ++ sq)
    ++ (matchedTerms textLower d.equipment).map
        (fun e => "Equipment: " ++ sq ++ e ++ sq ++ " detected")
    ++ (matchedTerms textLower d.industries).map
        (fun i => "Industry: " ++ sq ++ i ++ sq ++ " match")

/-- Spec: score every taxonomy entry, keep the non-zero ones, rank descending
by score (stable, so ties keep declaration order), emit the top 3. -/
def spec_recommendations (text : String) : List Recommendation :=
  let tl := pyLower text
  let scored := product_keywords.map
    (fun p => (p.1, ScoreData.mk (spec_entry_score tl p.2) (spec_entry_rationale tl p.2)))
  let nonzero := scored.filter (fun x => decide (0 < x.2.score))
  ((sortDesc nonzero).take 3).map
    (fun pd => Recommendation.mk pd.1 (roundTo2 pd.2.score) (String.intercalate "; " pd.2.reasons))

/-- Spec: intent-strength bucket value (high=30, medium=20, low=10). -/
def intent_bucket (intent : String) : ℚ :=
  if intent = "high" then 30 else if intent = "medium" then 20 else 10

/-- Spec: company-size bucket value (enterprise=10, large=8, medium=6, small=4,
any other size 6). -/
def size_bucket (size : String) : ℚ :=
  if size = "enterprise" then 10
  else if size = "large" then 8
  else if size = "medium" then 6
  else if size = "small" then 4
  else 6

/-- Mean product confidence, 0 when there are no recommendations. -/
def mean_confidence (recs : List Recommendation) : ℚ :=
  if recs = [] then 0 else (recs.map (·.confidence)).sum / recs.length

/-- Spec: the composite score — mean confidence × 40 + intent bucket +
urgency × 20 + size bucket, clamped to 100. -/
def spec_lead_score (analysis : AnalysisResult) (company_size : String) : ℚ :=
  roundTo2 (min (mean_confidence analysis.recommended_products * 40
      + intent_bucket analysis.intent_strength
      + analysis.urgency_score * 20
      + size_bucket company_size) 100)

/-- The company produced by entity resolution (with working persistence). -/
def resolvedCompany (db : DB) (signal : SignalData) : Option Company :=
  match find_or_create_company db signal noFail with
  | .ok (c, _) => c
  | .error _ => none

/-- The repository state after entity resolution (with working persistence). -/
def resolvedDB (db : DB) (signal : SignalData) : DB :=
  match find_or_create_company db signal noFail with
  | .ok (_, db2) => db2
  | .error (_, db2) => db2

/-! ### Concrete fixtures for witnesses and counterexamples -/

def emptyDB : DB := ⟨[], [], [], [], 1, 1, 1⟩

/-- A persistence environment where the lead insert's `commit()` raises. -/
def leadInsertFails : Fail := ⟨false, false, true⟩

def mkSignal (name text : String) (state : Option String := none) : SignalData :=
  ⟨name, text, none, some "news", "example.com", none, none, state, none⟩

/-- A signal that passes every gate (score 70). -/
def sigAlpha : SignalData := mkSignal "Alpha Steel" "furnace oil tender"

/-- A second clean signal, fuzzily unrelated to `sigAlpha` (score 66). -/
def sigBeta : SignalData := mkSignal "Beta Roadways" "bitumen tender"

/-- A signal with a recommendation but a composite score of 24 (< 30). -/
def sigGamma : SignalData := mkSignal "Gamma Industries" "ceramic"

/-- Another score-gate casualty. -/
def sigDelta : SignalData := mkSignal "Delta Fabrics" "ceramic"

/-- A clean signal to be hit by a persistence error. -/
def sigEpsilon : SignalData := mkSignal "Epsilon Power" "furnace oil tender"

/-- A signal whose company name is whitespace only. -/
def sigBlank : SignalData := mkSignal "   " "furnace oil tender"

/-- The batch of §8's batch scenario: 2 clean signals, 2 that fail the score
gate, and 1 whose lead insert raises a persistence error. -/
def batch5 : List (SignalData × Fail) :=
  [(sigAlpha, noFail), (sigBeta, noFail), (sigGamma, noFail),
   (sigDelta, noFail), (sigEpsilon, leadInsertFails)]

/-- Two stored companies: the first is an 90%-similar fuzzy match for the
candidate `sigFirst`, the second is a 100% (but not exact-name) match. -/
def dbTwo : DB :=
  ⟨[⟨1, "Company One", some "abcdefghix", none, none, none, none, none⟩,
    ⟨2, "Company Two", some "abcdefghij", none, none, none, none, none⟩],
   [], [], [], 3, 1, 1⟩

def sigFirst : SignalData := mkSignal "ABCDEFGHIJ" "furnace oil tender"

/-- One stored company whose normalized name is exactly 85% similar to the
candidate `sigEightyFive`. -/
def dbEdge : DB :=
  ⟨[⟨1, "Company Edge", some "abcdefghijklm", none, none, none, none, none⟩],
   [], [], [], 2, 1, 1⟩

def sigEightyFive : SignalData := mkSignal "abcdefghijkxy" "furnace oil tender"

/-- The source row created for `example.com` at clock 0. -/
def exSource : Source := ⟨1, "example.com", "https://example.com", "unknown", 1/2, true, some 0⟩

/-- Session state after company and source creation for `sigGamma`. -/
def gammaDB2 : DB := { createdDB emptyDB sigGamma with sources := [exSource], nextSourceId := 2 }

/-- Session state after company and source creation for `sigAlpha`. -/
def alphaDB2 : DB := { createdDB emptyDB sigAlpha with sources := [exSource], nextSourceId := 2 }

/-! ### General lemmas -/

set_option maxRecDepth 10000

lemma length_filter_pos_iff_any {α : Type} (p : α → Bool) (l : List α) :
    0 < (l.filter p).length ↔ l.any p = true := by
  induction l with
  | nil => simp
  | cons a as ih =>
    by_cases h : p a <;> simp [List.filter_cons, h, ih]

lemma find?_of_getElem {α : Type} {p : α → Bool} {l : List α} {i : Nat}
    (hi : i < l.length) (hhit : p l[i] = true)
    (hbefore : ∀ j (hj : j < i), p (l.get ⟨j, Nat.lt_trans hj hi⟩) = false) :
    l.find? p = some l[i] := by
  induction l generalizing i with
  | nil => exact absurd hi (by simp)
  | cons a as ih =>
    cases i with
    | zero => simpa using List.find?_cons_of_pos _ (by simpa using hhit)
    | succ n =>
      have ha : p a = false := hbefore 0 (Nat.succ_pos n)
      rw [List.find?_cons_of_neg _ (by simp [ha])]
      exact ih (by simpa using hi) (by simpa using hhit)
        (fun j hj => hbefore (j + 1) (by omega))

/-! ### C8: intent strength is decided by presence, not count -/

/-- **C8.** For every input text, intent strength is `high` whenever any
high-intent marker (tender/rfq/quotation/procurement/bid language) is present,
irrespective of how many medium-intent markers co-occur; otherwise `medium`
when any expansion/commissioning marker is present; otherwise `low` — the
count-based implementation agrees with the presence-based specification. -/
theorem intent_presence_not_count :
    (∀ text, calculate_intent_strength text = spec_intent_strength text) ∧
    (∀ text, (analyze_text text).intent_strength = spec_intent_strength (pyLower text)) ∧
    (∀ text, high_intent_markers.any (fun kw => strContains text kw) = true →
      calculate_intent_strength text = "high") := by
  have hmain : ∀ text, calculate_intent_strength text = spec_intent_strength text := by
    intro text
    unfold calculate_intent_strength spec_intent_strength
    unfold high_intent_markers medium_intent_markers
    by_cases hH : (["tender", "rfq", "quotation", "procurement", "bid",
        "supply required"].any (fun kw => strContains text kw)) = true
    · rw [if_pos hH, if_pos]
      exact (length_filter_pos_iff_any _ _).mpr hH
    · rw [if_neg hH, if_neg]
      · by_cases hM : (["expansion", "new plant", "commissioning",
            "setting up"].any (fun kw => strContains text kw)) = true
        · rw [if_pos hM, if_pos ((length_filter_pos_iff_any _ _).mpr hM)]
        · rw [if_neg hM, if_neg]
          intro hlen
          exact hM ((length_filter_pos_iff_any _ _).mp hlen)
      · intro hlen
        exact hH ((length_filter_pos_iff_any _ _).mp hlen)
  refine ⟨hmain, ?_, ?_⟩
  · intro text
    have : (analyze_text text).intent_strength = calculate_intent_strength (pyLower text) := rfl
    rw [this, hmain]
  · intro text hhit
    rw [hmain]
    unfold spec_intent_strength
    rw [if_pos hhit]

/-- Witness for C8: text carrying both a high- and a medium-intent marker is
classified `high`. -/
theorem intent_presence_not_count_witness :
    calculate_intent_strength "tender for plant expansion" = "high" :=
  intent_presence_not_count.2.2 _ (by decide)

/-! ### Case analysis of `_find_or_create_company` -/

/-- Exhaustive case analysis of entity resolution: blank name, exact match,
fuzzy match, failing create-commit, or successful creation. -/
lemma find_or_create_cases (db : DB) (s : SignalData) (fail : Fail) :
    (pyStrip s.company_name = "" ∧ find_or_create_company db s fail = .ok (none, db)) ∨
    (pyStrip s.company_name ≠ "" ∧
      ((∃ c, db.companies.find? (exactNamePred s) = some c ∧
          find_or_create_company db s fail = .ok (some c, db)) ∨
      (db.companies.find? (exactNamePred s) = none ∧
        ((∃ c, db.companies.find? (fuzzyMatchPred s) = some c ∧
            find_or_create_company db s fail = .ok (some c, db)) ∨
        (db.companies.find? (fuzzyMatchPred s) = none ∧
          ((fail.company = true ∧
              find_or_create_company db s fail = .error ("commit failed", db)) ∨
          (fail.company = false ∧
              find_or_create_company db s fail =
                .ok (some (newCompany db s), createdDB db s)))))))) := by
  by_cases h : pyStrip s.company_name = ""
  · exact Or.inl ⟨h, by simp only [find_or_create_company, if_pos h]⟩
  · refine Or.inr ⟨h, ?_⟩
    cases hex : db.companies.find? (exactNamePred s) with
    | some c =>
      exact Or.inl ⟨c, rfl, by simp only [find_or_create_company, if_neg h, hex]⟩
    | none =>
      refine Or.inr ⟨rfl, ?_⟩
      cases hfz : db.companies.find? (fuzzyMatchPred s) with
      | some c =>
        exact Or.inl ⟨c, rfl, by simp only [find_or_create_company, if_neg h, hex, hfz]⟩
      | none =>
        refine Or.inr ⟨rfl, ?_⟩
        cases hfc : fail.company with
        | true =>
          exact Or.inl ⟨rfl, by simp only [find_or_create_company, if_neg h, hex, hfz, hfc,
            if_true]⟩
        | false =>
          exact Or.inr ⟨rfl, by simp only [find_or_create_company, if_neg h, hex, hfz, hfc,
            Bool.false_eq_true, if_false]⟩

/-! ### C4: entity resolution is total for non-empty names -/

/-- **C4.** With working persistence, entity resolution never fails for a
company name that is non-empty after trimming: it always produces a `Company`
(matched, or newly created and persisted immediately into the repository).
It fails — surfacing `none`, the recoverable skip that the spec's taxonomy
labels `InvalidInputError` — exactly when the trimmed name is empty. -/
theorem resolve_total (db : DB) (s : SignalData) :
    (pyStrip s.company_name = "" → find_or_create_company db s noFail = .ok (none, db)) ∧
    (pyStrip s.company_name ≠ "" →
      find_or_create_company db s noFail = .ok (resolvedCompany db s, resolvedDB db s) ∧
      (resolvedCompany db s).isSome = true ∧
      ∀ c, resolvedCompany db s = some c → c ∈ (resolvedDB db s).companies) := by
  rcases find_or_create_cases db s noFail with ⟨h0, heq⟩ |
    ⟨h0, ⟨c, hex, heq⟩ | ⟨hex, ⟨c, hfz, heq⟩ | ⟨hfz, ⟨hfc, heq⟩ | ⟨hfc, heq⟩⟩⟩⟩
  · exact ⟨fun _ => heq, fun hne => absurd h0 hne⟩
  · have hC : resolvedCompany db s = some c := by
      unfold resolvedCompany; rw [heq]
    have hD : resolvedDB db s = db := by
      unfold resolvedDB; rw [heq]
    refine ⟨fun he => absurd he h0, fun _ => ⟨by rw [hC, hD]; exact heq, by rw [hC]; rfl, ?_⟩⟩
    intro c2 hc2
    rw [hC] at hc2
    rw [hD]
    exact (Option.some.injEq .. ▸ hc2) ▸ List.mem_of_find?_eq_some hex
  · have hC : resolvedCompany db s = some c := by
      unfold resolvedCompany; rw [heq]
    have hD : resolvedDB db s = db := by
      unfold resolvedDB; rw [heq]
    refine ⟨fun he => absurd he h0, fun _ => ⟨by rw [hC, hD]; exact heq, by rw [hC]; rfl, ?_⟩⟩
    intro c2 hc2
    rw [hC] at hc2
    rw [hD]
    exact (Option.some.injEq .. ▸ hc2) ▸ List.mem_of_find?_eq_some hfz
  · exact absurd hfc (by simp [noFail])
  · have hC : resolvedCompany db s = some (newCompany db s) := by
      unfold resolvedCompany; rw [heq]
    have hD : resolvedDB db s = createdDB db s := by
      unfold resolvedDB; rw [heq]
    refine ⟨fun he => absurd he h0, fun _ => ⟨by rw [hC, hD]; exact heq, by rw [hC]; rfl, ?_⟩⟩
    intro c2 hc2
    rw [hC] at hc2
    rw [hD]
    have : newCompany db s = c2 := Option.some.injEq .. ▸ hc2
    simp [← this, createdDB]

/-- Witness for C4: a blank name is rejected; a real name resolves. -/
theorem resolve_total_witness :
    find_or_create_company emptyDB sigBlank noFail = .ok (none, emptyDB) ∧
    (resolvedCompany emptyDB sigAlpha).isSome = true :=
  ⟨(resolve_total emptyDB sigBlank).1 (by decide),
   ((resolve_total emptyDB sigAlpha).2 (by decide)).2.1⟩

/-! ### C9: entity resolution is idempotent for repeated identical input -/

/-- **C9.** For every repository state and signal with a non-blank company
name, resolving twice with identical input yields the same `Company` (hence
the same `Company.id`) both times, and the second call leaves the repository
unchanged: it finds exactly the record created or matched by the first call. -/
theorem resolve_idempotent (db : DB) (s : SignalData)
    (h : pyStrip s.company_name ≠ "") :
    (resolvedCompany db s).isSome = true ∧
    find_or_create_company (resolvedDB db s) s noFail =
      .ok (resolvedCompany db s, resolvedDB db s) := by
  rcases find_or_create_cases db s noFail with ⟨h0, heq⟩ |
    ⟨h0, ⟨c, hex, heq⟩ | ⟨hex, ⟨c, hfz, heq⟩ | ⟨hfz, ⟨hfc, heq⟩ | ⟨hfc, heq⟩⟩⟩⟩
  · exact absurd h0 h
  · have hC : resolvedCompany db s = some c := by unfold resolvedCompany; rw [heq]
    have hD : resolvedDB db s = db := by unfold resolvedDB; rw [heq]
    rw [hC, hD]
    exact ⟨rfl, heq⟩
  · have hC : resolvedCompany db s = some c := by unfold resolvedCompany; rw [heq]
    have hD : resolvedDB db s = db := by unfold resolvedDB; rw [heq]
    rw [hC, hD]
    exact ⟨rfl, heq⟩
  · exact absurd hfc (by simp [noFail])
  · have hC : resolvedCompany db s = some (newCompany db s) := by
      unfold resolvedCompany; rw [heq]
    have hD : resolvedDB db s = createdDB db s := by
      unfold resolvedDB; rw [heq]
    rw [hC, hD]
    refine ⟨rfl, ?_⟩
    simp only [find_or_create_company, if_neg h]
    rw [show (createdDB db s).companies = db.companies ++ [newCompany db s] from rfl]
    rw [List.find?_append, hex, Option.none_or,
      List.find?_cons_of_pos _ (by simp [exactNamePred, newCompany])]

/-- Witness for C9: resolving `sigAlpha` twice against an initially empty
repository returns the company created by the first call. -/
theorem resolve_idempotent_witness :
    (resolvedCompany emptyDB sigAlpha).isSome = true ∧
    find_or_create_company (resolvedDB emptyDB sigAlpha) sigAlpha noFail =
      .ok (resolvedCompany emptyDB sigAlpha, resolvedDB emptyDB sigAlpha) :=
  resolve_idempotent emptyDB sigAlpha (by decide)

/-! ### C3: fuzzy matching — strict threshold, first match wins -/

/-- **C3 (counterexample).** The claim fails on the code in two ways.
(1) At similarity exactly 85 the code does *not* match (its test is strictly
`> 85`): against a stored company whose normalized name is 85% similar, a new
record is created.  (2) With no exact match, the code returns the *first*
company in repository order whose similarity exceeds 85, not the
highest-scoring one: with stored similarities 90 (id 1) and 100 (id 2), the
claim picks id 2, but the code returns id 1. -/
theorem fuzzy_matching_counterexample :
    (fuzzRatio "abcdefghijkxy" "abcdefghijklm" = 85 ∧
      find_or_create_company dbEdge sigEightyFive noFail =
        .ok (some (newCompany dbEdge sigEightyFive), createdDB dbEdge sigEightyFive) ∧
      (newCompany dbEdge sigEightyFive).name = "abcdefghijkxy" ∧
      dbEdge.companies.map (fun c => c.name) = ["Company Edge"]) ∧
    (fuzzRatio "abcdefghij" "abcdefghix" = 90 ∧
      fuzzRatio "abcdefghij" "abcdefghij" = 100 ∧
      resolvedCompany dbTwo sigFirst =
        some ⟨1, "Company One", some "abcdefghix", none, none, none, none, none⟩) := by
  exact ⟨⟨by decide, by decide, by decide, by decide⟩, ⟨by decide, by decide, by decide⟩⟩

/-- **C3 (amended).** For a candidate name with no exact repository match,
the code compares the normalized candidate against every stored normalized
name and returns the *first* company in repository order whose similarity is
*strictly greater than* 85; when no stored company exceeds 85 (similarity
exactly 85 included), a new record with the derived normalized name is created
and persisted. -/
theorem fuzzy_first_match (db : DB) (s : SignalData) (fail : Fail)
    (hname : pyStrip s.company_name ≠ "")
    (hexact : db.companies.find? (exactNamePred s) = none) :
    (∀ i (hi : i < db.companies.length),
        fuzzyMatchPred s db.companies[i] = true →
        (∀ j (hj : j < i), fuzzyMatchPred s (db.companies.get ⟨j, Nat.lt_trans hj hi⟩) = false) →
        find_or_create_company db s fail = .ok (some db.companies[i], db)) ∧
    ((∀ c ∈ db.companies, fuzzyMatchPred s c = false) → fail.company = false →
        find_or_create_company db s fail = .ok (some (newCompany db s), createdDB db s) ∧
        (newCompany db s).name = pyStrip s.company_name ∧
        (newCompany db s).normalized_name =
          some (pyRemoveSpaces (pyLower (pyStrip s.company_name)))) := by
  constructor
  · intro i hi hhit hbefore
    have hfz : db.companies.find? (fuzzyMatchPred s) = some db.companies[i] :=
      find?_of_getElem hi hhit hbefore
    simp only [find_or_create_company, if_neg hname, hexact, hfz]
  · intro hall hfc
    have hfz : db.companies.find? (fuzzyMatchPred s) = none :=
      List.find?_eq_none.mpr (fun c hc => by simp [hall c hc])
    refine ⟨?_, rfl, rfl⟩
    simp only [find_or_create_company, if_neg hname, hexact, hfz, hfc,
      Bool.false_eq_true, if_false]

/-- Witness for the amended C3: both the first-match case (at `dbTwo`, where
the first company at similarity 90 beats the later one at 100) and the
create case (at `dbEdge`, where the only candidate sits at exactly 85). -/
theorem fuzzy_first_match_witness :
    find_or_create_company dbTwo sigFirst noFail =
      .ok (some ⟨1, "Company One", some "abcdefghix", none, none, none, none, none⟩, dbTwo) ∧
    find_or_create_company dbEdge sigEightyFive noFail =
      .ok (some (newCompany dbEdge sigEightyFive), createdDB dbEdge sigEightyFive) := by
  constructor
  · exact (fuzzy_first_match dbTwo sigFirst noFail (by decide) (by decide)).1 0 (by decide)
      (by decide) (fun j hj => absurd hj (by omega))
  · exact ((fuzzy_first_match dbEdge sigEightyFive noFail (by decide) (by decide)).2
      (by decide) rfl).1

/-! ### State preservation through the pipeline's helpers -/

lemma find_or_create_company_state (db : DB) (s : SignalData) (fail : Fail) :
    (∀ c db2, find_or_create_company db s fail = .ok (c, db2) →
      db2.sources = db.sources ∧ db2.officers = db.officers ∧ db2.leads = db.leads) ∧
    (∀ e, find_or_create_company db s fail = .error e → e.2 = db) := by
  have hok : ∀ (dbr : DB), dbr.sources = db.sources → dbr.officers = db.officers →
      dbr.leads = db.leads → ∀ (v : Option Company × DB),
      find_or_create_company db s fail = .ok v → v.2 = dbr →
      (∀ c db2, find_or_create_company db s fail = .ok (c, db2) →
        db2.sources = db.sources ∧ db2.officers = db.officers ∧ db2.leads = db.leads) := by
    intro dbr h1 h2 h3 v hv hv2 c db2 h4
    rw [hv] at h4
    have hvv : v = (c, db2) := Except.ok.injEq .. ▸ h4
    rw [hvv] at hv2
    have hdb : db2 = dbr := hv2
    rw [hdb]
    exact ⟨h1, h2, h3⟩
  rcases find_or_create_cases db s fail with ⟨h0, heq⟩ |
    ⟨h0, ⟨c, hex, heq⟩ | ⟨hex, ⟨c, hfz, heq⟩ | ⟨hfz, ⟨hfc, heq⟩ | ⟨hfc, heq⟩⟩⟩⟩
  · exact ⟨hok db rfl rfl rfl _ heq rfl, fun e he => by rw [heq] at he; exact absurd he (by simp)⟩
  · exact ⟨hok db rfl rfl rfl _ heq rfl, fun e he => by rw [heq] at he; exact absurd he (by simp)⟩
  · exact ⟨hok db rfl rfl rfl _ heq rfl, fun e he => by rw [heq] at he; exact absurd he (by simp)⟩
  · refine ⟨fun c db2 h4 => by rw [heq] at h4; exact absurd h4 (by simp), fun e he => ?_⟩
    rw [heq] at he
    have : ("commit failed", db) = e := Except.error.injEq .. ▸ he
    rw [← this]
  · exact ⟨hok (createdDB db s) rfl rfl rfl _ heq rfl,
      fun e he => by rw [heq] at he; exact absurd he (by simp)⟩

lemma get_or_create_source_state (db : DB) (domain : String) (fail : Fail) (now : Nat) :
    (∀ src db2, get_or_create_source db domain fail now = .ok (src, db2) →
      db2.companies = db.companies ∧ db2.officers = db.officers ∧
      db2.leads = db.leads ∧ db2.nextLeadId = db.nextLeadId) ∧
    (∀ e, get_or_create_source db domain fail now = .error e → e.2 = db) := by
  cases hf : fail.source with
  | true =>
    constructor
    · intro src db2 h2
      simp only [get_or_create_source, hf, if_true] at h2
      exact absurd h2 (by simp)
    · intro e he
      simp only [get_or_create_source, hf, if_true] at he
      have : ("commit failed", db) = e := Except.error.injEq .. ▸ he
      rw [← this]
  | false =>
    constructor
    · intro src db2 h2
      simp only [get_or_create_source, hf, Bool.false_eq_true, if_false] at h2
      cases hfind : db.sources.find? (fun s => s.domain == domain) with
      | some source =>
        rw [hfind] at h2
        simp only [Except.ok.injEq, Prod.mk.injEq] at h2
        rw [← h2.2]
        exact ⟨rfl, rfl, rfl, rfl⟩
      | none =>
        rw [hfind] at h2
        simp only [Except.ok.injEq, Prod.mk.injEq] at h2
        rw [← h2.2]
        exact ⟨rfl, rfl, rfl, rfl⟩
    · intro e he
      simp only [get_or_create_source, hf, Bool.false_eq_true, if_false] at he
      cases hfind : db.sources.find? (fun s => s.domain == domain) with
      | some source => rw [hfind] at he; exact absurd he (by simp)
      | none => rw [hfind] at he; exact absurd he (by simp)

/-- Exhaustive shape of a `process_signal` run: either no lead is created (the
result is `none` or an exception is in flight) and the lead table is
untouched, or every gate passed and exactly the lead row built by `mkLead` was
appended. -/
lemma process_signalE_shape (now : Nat) (db : DB) (s : SignalData) (fail : Fail) :
    (∃ db2, (process_signalE now db s fail = .ok (none, db2) ∨
        (∃ m, process_signalE now db s fail = .error (m, db2))) ∧ db2.leads = db.leads) ∨
    (∃ company db1 source db2,
      find_or_create_company db s fail = .ok (some company, db1) ∧
      get_or_create_source db1 s.source_domain fail now = .ok (source, db2) ∧
      (analyze_text s.signal_text).recommended_products ≠ [] ∧
      ¬ calculate_lead_score (analyze_text s.signal_text) (company_size_of company) < 30 ∧
      fail.lead = false ∧ db2.leads = db.leads ∧
      process_signalE now db s fail = .ok (some (mkLead now db2 s company source).id,
        leadInsertedDB now db2 s company source)) := by
  cases hfc : find_or_create_company db s fail with
  | error e =>
    refine Or.inl ⟨e.2, Or.inr ⟨e.1, ?_⟩, ?_⟩
    · simp only [process_signalE, hfc]
    · exact (find_or_create_company_state db s fail).2 e hfc ▸ rfl
  | ok v =>
    obtain ⟨c?, db1⟩ := v
    have hdb1 := (find_or_create_company_state db s fail).1 c? db1 hfc
    cases c? with
    | none =>
      exact Or.inl ⟨db1, Or.inl (by simp only [process_signalE, hfc]), hdb1.2.2⟩
    | some company =>
      cases hgs : get_or_create_source db1 s.source_domain fail now with
      | error e =>
        refine Or.inl ⟨e.2, Or.inr ⟨e.1, ?_⟩, ?_⟩
        · simp only [process_signalE, hfc, hgs]
        · exact (get_or_create_source_state db1 s.source_domain fail now).2 e hgs ▸ hdb1.2.2
      | ok v2 =>
        obtain ⟨source, db2⟩ := v2
        have hdb2 := (get_or_create_source_state db1 s.source_domain fail now).1 source db2 hgs
        have hleads : db2.leads = db.leads := hdb2.2.2.1.trans hdb1.2.2
        by_cases hrec : (analyze_text s.signal_text).recommended_products = []
        · refine Or.inl ⟨db2, Or.inl ?_, hleads⟩
          simp only [process_signalE, hfc, hgs, if_pos hrec]
        · by_cases hscore :
            calculate_lead_score (analyze_text s.signal_text) (company_size_of company) < 30
          · refine Or.inl ⟨db2, Or.inl ?_, hleads⟩
            simp only [process_signalE, hfc, hgs, if_neg hrec, if_pos hscore]
          · cases hfl : fail.lead with
            | true =>
              refine Or.inl ⟨db2, Or.inr ⟨"commit failed", ?_⟩, hleads⟩
              simp only [process_signalE, hfc, hgs, if_neg hrec, if_neg hscore, hfl, if_true]
            | false =>
              refine Or.inr ⟨company, db1, source, db2, ?_, ?_, ?_, ?_, ?_, ?_, ?_⟩
              · rfl
              · exact hgs
              · exact hrec
              · exact hscore
              · rfl
              · exact hleads
              · simp only [process_signalE, hfc, hgs, if_neg hrec, if_neg hscore, hfl,
                  Bool.false_eq_true, if_false]

/-! ### C1: failures are caught, but rollback is not atomic across steps -/

/-- **C1 (counterexample).** The claim's atomic-rollback half fails: when the
lead insert's `commit()` raises, `process_signal` surfaces `none`, but the
session is *not* back to its pre-signal state — the company created and the
source upserted for this very signal were committed by earlier pipeline steps
and survive.  Under atomic per-signal rollback the final state would equal
`emptyDB`. -/
theorem process_rollback_counterexample :
    (process_signal 0 emptyDB sigAlpha leadInsertFails).1 = none ∧
    (process_signal 0 emptyDB sigAlpha leadInsertFails).2 ≠ emptyDB ∧
    (process_signal 0 emptyDB sigAlpha leadInsertFails).2.companies.map
      (fun c => c.name) = ["Alpha Steel"] ∧
    (process_signal 0 emptyDB sigAlpha leadInsertFails).2.sources.map
      (fun s => s.domain) = ["example.com"] ∧
    (process_signal 0 emptyDB sigAlpha leadInsertFails).2.leads = [] :=
  of_decide_eq_true (by with_unfolding_all rfl)

/-- **C1 (amended).** `process_signal` never raises past its boundary: every
internal failure is caught and surfaced as `none`, with the session rolled back
to the state committed at the raise site — so a failing lead insert never
leaves a half-created lead row (the lead table is unchanged whenever no lead id
is returned).  However, persistence already committed by earlier steps of the
same signal (company create, source upsert) is *not* undone. -/
theorem process_failure_containment (now : Nat) (db : DB) (s : SignalData) (fail : Fail) :
    (∀ e, process_signalE now db s fail = .error e →
      process_signal now db s fail = (none, e.2)) ∧
    ((process_signal now db s fail).1 = none →
      (process_signal now db s fail).2.leads = db.leads) := by
  constructor
  · intro e he
    unfold process_signal
    rw [he]
  · intro hnone
    rcases process_signalE_shape now db s fail with ⟨db2, hcase, hleads⟩ |
      ⟨company, db1, source, db2, _, _, _, _, _, hleads, heq⟩
    · rcases hcase with heq | ⟨m, heq⟩
      · unfold process_signal
        rw [heq]
        exact hleads
      · unfold process_signal
        rw [heq]
        exact hleads
    · unfold process_signal at hnone
      rw [heq] at hnone
      exact absurd hnone (by simp)

/-- Witness for C1: with the lead insert failing on `sigAlpha`, the run
surfaces `none` and the lead table is untouched. -/
theorem process_failure_containment_witness :
    (process_signal 0 emptyDB sigAlpha leadInsertFails).2.leads = emptyDB.leads :=
  (process_failure_containment 0 emptyDB sigAlpha leadInsertFails).2
    (of_decide_eq_true (by with_unfolding_all rfl))

/-! ### C2: the batch counters never report errors -/

/-- **C2 (code bug).** The batch scenario of the spec — 5 signals, 2 clean,
2 failing the score gate, 1 raising a persistence error — yields
`{processed := 5, created := 2, skipped := 3, errors := 0}`, not the
documented `{5, 2, 2, 1}`: `batch_process_signals` initializes an `errors`
counter but never increments it, because `process_signal` returns `None` for
both skipped and errored signals.  The conjuncts below also check the
scenario: the first two signals create leads, the ceramic signals carry a
recommendation yet score 24 < 30 (score-gate skip, no error), and the fifth
signal's run ends in an exception. -/
theorem batch_errors_counterexample :
    (batch_process_signals 0 emptyDB batch5).1 = ⟨5, 2, 3, 0⟩ ∧
    (batch_process_signals 0 emptyDB batch5).1 ≠ ⟨5, 2, 2, 1⟩ ∧
    (batch_process_signals 0 emptyDB (batch5.take 2)).1 = ⟨2, 2, 0, 0⟩ ∧
    ((analyze_text sigGamma.signal_text).recommended_products ≠ [] ∧
      calculate_lead_score (analyze_text sigGamma.signal_text) "medium" < 30) ∧
    (process_signalE 0 (batch_process_signals 0 emptyDB (batch5.take 4)).2
      sigEpsilon leadInsertFails).toOption = none :=
  of_decide_eq_true (by with_unfolding_all rfl)

/-! ### C7: the score gate persists a lead exactly when the score reaches 30 -/

/-- **C7.** A lead is persisted only if its composite score is at least the
fixed rejection threshold 30: every lead row added by `process_signal` has
`lead_score ≥ 30`; whenever the computed score is below 30 the signal is
rejected with no lead persisted, and a score of 30 or more (with a non-empty
recommendation list and a working lead insert) is accepted and persisted with
exactly that score. -/
theorem score_gate (now : Nat) (db : DB) (s : SignalData) (fail : Fail) :
    (∀ l ∈ (process_signal now db s fail).2.leads, l ∈ db.leads ∨ 30 ≤ l.lead_score) ∧
    (∀ company db1 source db2,
      find_or_create_company db s fail = .ok (some company, db1) →
      get_or_create_source db1 s.source_domain fail now = .ok (source, db2) →
      ((calculate_lead_score (analyze_text s.signal_text) (company_size_of company) < 30 →
          process_signal now db s fail = (none, db2)) ∧
        (¬ calculate_lead_score (analyze_text s.signal_text) (company_size_of company) < 30 →
          (analyze_text s.signal_text).recommended_products ≠ [] → fail.lead = false →
          process_signal now db s fail =
            (some (mkLead now db2 s company source).id,
              leadInsertedDB now db2 s company source) ∧
          (mkLead now db2 s company source).lead_score =
            calculate_lead_score (analyze_text s.signal_text) (company_size_of company)))) := by
  constructor
  · intro l hl
    rcases process_signalE_shape now db s fail with ⟨db2, hcase, hleads⟩ |
      ⟨company, db1, source, db2, _, _, _, hscore, _, hleads, heq⟩
    · rcases hcase with heq | ⟨m, heq⟩
      · unfold process_signal at hl
        rw [heq] at hl
        exact Or.inl (hleads ▸ hl)
      · unfold process_signal at hl
        rw [heq] at hl
        exact Or.inl (hleads ▸ hl)
    · unfold process_signal at hl
      rw [heq] at hl
      have : l ∈ db2.leads ++ [mkLead now db2 s company source] := hl
      rcases List.mem_append.mp this with hmem | hmem
      · exact Or.inl (hleads ▸ hmem)
      · have hle : l = mkLead now db2 s company source := List.mem_singleton.mp hmem
        refine Or.inr ?_
        rw [hle]
        have hfield : (mkLead now db2 s company source).lead_score =
            calculate_lead_score (analyze_text s.signal_text) (company_size_of company) := rfl
        rw [hfield]
        exact le_of_not_lt hscore
  · intro company db1 source db2 hfc hgs
    constructor
    · intro hscore
      unfold process_signal process_signalE
      simp only [hfc, hgs]
      by_cases hrec : (analyze_text s.signal_text).recommended_products = []
      · rw [if_pos hrec]
      · rw [if_neg hrec, if_pos hscore]
    · intro hscore hrec hfl
      refine ⟨?_, rfl⟩
      unfold process_signal process_signalE
      simp only [hfc, hgs]
      rw [if_neg hrec, if_neg hscore, hfl]
      simp only [Bool.false_eq_true, if_false]

/-! ### C10: an empty-string state is treated as absent -/

lemma extract_location_ne_empty (text : String) :
    ∀ l ∈ extract_location text, l ≠ "" := by
  intro l hl
  have hmem := List.mem_of_mem_filter hl
  fin_cases hmem <;> decide

/-- **C10.** Territory selection treats an empty-string state as absent, never
as a territory: when `signal.state` is falsy (missing or `""`) the territory
falls through to `company.state`, then to the first extracted location, else
`none`.  Consequently no lead created by the pipeline ever carries
`territory_state = some ""`, and an absent territory never triggers officer
assignment. -/
theorem empty_state_treated_as_absent (now : Nat) (db : DB) (s : SignalData) (fail : Fail) :
    (∀ st cs locs, pyTruthy st = false →
      territory_state_of st cs locs = pyOr cs locs.head?) ∧
    (∀ text st cs, territory_state_of st cs (extract_location text) ≠ some "") ∧
    (∀ l ∈ (process_signal now db s fail).2.leads, l ∈ db.leads ∨
      (l.territory_state ≠ some "" ∧
        (l.territory_state = none → l.assigned_officer_id = none))) := by
  have habs : ∀ st cs locs, pyTruthy st = false →
      territory_state_of st cs locs = pyOr cs locs.head? := by
    intro st cs locs h
    unfold territory_state_of pyOr
    rw [h]
    simp
  have hne : ∀ text st cs, territory_state_of st cs (extract_location text) ≠ some "" := by
    intro text st cs
    unfold territory_state_of pyOr
    by_cases hst : pyTruthy st = true
    · rw [if_pos hst]
      cases st with
      | none => simp [pyTruthy] at hst
      | some x =>
        simp only [pyTruthy, decide_eq_true_eq] at hst
        simp [hst]
    · rw [if_neg hst]
      by_cases hcs : pyTruthy cs = true
      · rw [if_pos hcs]
        cases cs with
        | none => simp [pyTruthy] at hcs
        | some x =>
          simp only [pyTruthy, decide_eq_true_eq] at hcs
          simp [hcs]
      · rw [if_neg hcs]
        cases hl : (extract_location text).head? with
        | none => simp
        | some y =>
          obtain ⟨ys, hys⟩ := List.head?_eq_some_iff.mp hl
          have : y ∈ extract_location text := by rw [hys]; exact List.mem_cons_self y ys
          have hy := extract_location_ne_empty text y this
          simp [hy]
  refine ⟨habs, hne, ?_⟩
  intro l hl
  rcases process_signalE_shape now db s fail with ⟨db2, hcase, hleads⟩ |
    ⟨company, db1, source, db2, _, _, _, _, _, hleads, heq⟩
  · rcases hcase with heq | ⟨m, heq⟩
    · unfold process_signal at hl
      rw [heq] at hl
      exact Or.inl (hleads ▸ hl)
    · unfold process_signal at hl
      rw [heq] at hl
      exact Or.inl (hleads ▸ hl)
  · unfold process_signal at hl
    rw [heq] at hl
    have : l ∈ db2.leads ++ [mkLead now db2 s company source] := hl
    rcases List.mem_append.mp this with hmem | hmem
    · exact Or.inl (hleads ▸ hmem)
    · have hle : l = mkLead now db2 s company source := List.mem_singleton.mp hmem
      refine Or.inr ?_
      rw [hle]
      have hterr : (mkLead now db2 s company source).territory_state =
          territory_state_of s.state company.state (extract_location s.signal_text) := rfl
      constructor
      · rw [hterr]
        exact hne s.signal_text s.state company.state
      · intro hnone
        rw [hterr] at hnone
        have hoff : (mkLead now db2 s company source).assigned_officer_id =
            (if pyTruthy (territory_state_of s.state company.state
                (extract_location s.signal_text)) = true then
              assign_officer db2 ((territory_state_of s.state company.state
                (extract_location s.signal_text)).getD "")
            else none).map (fun o => o.id) := rfl
        rw [hoff, hnone]
        simp [pyTruthy]

/-- Witness for C10: an empty-string signal state falls through to the company
state. -/
theorem empty_state_treated_as_absent_witness :
    territory_state_of (some "") (some "Gujarat") [] = some "Gujarat" :=
  ((empty_state_treated_as_absent 0 emptyDB sigAlpha noFail).1
    (some "") (some "Gujarat") [] (by decide)).trans (by decide)

/-- Witness for C7: `sigGamma` (score 24) is rejected with no lead persisted;
`sigAlpha` (score 70) is accepted and persisted. -/
theorem score_gate_witness :
    process_signal 0 emptyDB sigGamma noFail = (none, gammaDB2) ∧
    process_signal 0 emptyDB sigAlpha noFail =
      (some (mkLead 0 alphaDB2 sigAlpha (newCompany emptyDB sigAlpha) exSource).id,
        leadInsertedDB 0 alphaDB2 sigAlpha (newCompany emptyDB sigAlpha) exSource) := by
  constructor
  · exact ((score_gate 0 emptyDB sigGamma noFail).2 (newCompany emptyDB sigGamma)
      (createdDB emptyDB sigGamma) exSource gammaDB2
      (of_decide_eq_true (by with_unfolding_all rfl))
      (of_decide_eq_true (by with_unfolding_all rfl))).1
      (of_decide_eq_true (by with_unfolding_all rfl))
  · exact (((score_gate 0 emptyDB sigAlpha noFail).2 (newCompany emptyDB sigAlpha)
      (createdDB emptyDB sigAlpha) exSource alphaDB2
      (of_decide_eq_true (by with_unfolding_all rfl))
      (of_decide_eq_true (by with_unfolding_all rfl))).2
      (of_decide_eq_true (by with_unfolding_all rfl))
      (of_decide_eq_true (by with_unfolding_all rfl)) rfl).1

/-! ### Classifier lemmas -/

lemma scanTier_eq (tl : String) (terms : List String) (inc : ℚ) (r : String → String) :
    scanTier tl terms inc r =
      (inc * ((matchedTerms tl terms).length : ℚ), matchedTerms tl terms,
        (matchedTerms tl terms).map r) := by
  suffices h : ∀ (ts : List String) (acc : ℚ × List String × List String),
      ts.foldl
        (fun acc term =>
          if strContains tl (pyLower term) then
            (acc.1 + inc, acc.2.1 ++ [term], acc.2.2 ++ [r term])
          else acc)
        acc =
        (acc.1 + inc * ((matchedTerms tl ts).length : ℚ), acc.2.1 ++ matchedTerms tl ts,
          acc.2.2 ++ (matchedTerms tl ts).map r) by
    unfold scanTier
    rw [h terms (0, [], [])]
    simp
  intro ts
  induction ts with
  | nil => intro acc; simp [matchedTerms]
  | cons t ts ih =>
    intro acc
    by_cases ht : strContains tl (pyLower t)
    · rw [List.foldl_cons, if_pos ht, ih]
      unfold matchedTerms
      rw [List.filter_cons, if_pos ht]
      simp only [List.length_cons, List.map_cons, Nat.cast_add, Nat.cast_one]
      refine congrArg₂ Prod.mk ?_ (congrArg₂ Prod.mk ?_ ?_)
      · ring
      · simp
      · simp
    · rw [List.foldl_cons, if_neg ht, ih]
      unfold matchedTerms
      rw [List.filter_cons, if_neg ht]

lemma product_keywords_nodup :
    ∀ p ∈ product_keywords,
      p.2.keywords.Nodup ∧ p.2.equipment.Nodup ∧ p.2.industries.Nodup := by decide

lemma analyzeProduct_eq (tl : String) (d : ProductData) :
    analyzeProduct tl d =
      ((4/10) * ((matchedTerms tl d.keywords).length : ℚ)
          + (3/10) * ((matchedTerms tl d.equipment).length : ℚ)
          + (2/10) * ((matchedTerms tl d.industries).length : ℚ),
        matchedTerms tl d.keywords, matchedTerms tl d.equipment,
        spec_entry_rationale tl d) := by
  unfold analyzeProduct spec_entry_rationale
  rw [scanTier_eq, scanTier_eq, scanTier_eq]

lemma spec_entry_score_eq (tl : String) (d : ProductData)
    (hk : d.keywords.Nodup) (he : d.equipment.Nodup) (hi : d.industries.Nodup) :
    spec_entry_score tl d = min (analyzeProduct tl d).1 1 := by
  have hnk : (matchedTerms tl d.keywords).Nodup := hk.filter _
  have hne : (matchedTerms tl d.equipment).Nodup := he.filter _
  have hni : (matchedTerms tl d.industries).Nodup := hi.filter _
  unfold spec_entry_score
  rw [analyzeProduct_eq, List.Nodup.dedup hnk, List.Nodup.dedup hne, List.Nodup.dedup hni]

lemma analyze_fold (tl : String) (ps : List (String × ProductData)) :
    ∀ (acc : List (String × ScoreData) × List String × List String),
      (ps.foldl (analyzeStep tl) acc).1 = acc.1 ++ ps.filterMap (fun p =>
        if (analyzeProduct tl p.2).1 > 0 then
          some (p.1, ScoreData.mk (min (analyzeProduct tl p.2).1 1)
            (analyzeProduct tl p.2).2.2.2)
        else none) := by
  induction ps with
  | nil => intro acc; simp
  | cons p ps ih =>
    intro acc
    rw [List.foldl_cons, ih]
    have hstep : (analyzeStep tl acc p).1 =
        if (analyzeProduct tl p.2).1 > 0 then
          acc.1 ++ [(p.1, ScoreData.mk (min (analyzeProduct tl p.2).1 1)
            (analyzeProduct tl p.2).2.2.2)]
        else acc.1 := rfl
    rw [hstep]
    by_cases hp : (analyzeProduct tl p.2).1 > 0
    · rw [if_pos hp, List.filterMap_cons_some (by simp only [if_pos hp]; rfl),
        List.append_assoc, List.singleton_append]
    · rw [if_neg hp, List.filterMap_cons_none (by simp only [if_neg hp])]

lemma filterMap_if_eq_filter_map {α β : Type} (f : α → β) (c : β → Bool) (l : List α) :
    l.filterMap (fun a => if c (f a) = true then some (f a) else none) =
      (l.map f).filter c := by
  induction l with
  | nil => rfl
  | cons a as ih =>
    by_cases h : c (f a) = true
    · rw [List.filterMap_cons_some (by simp only [if_pos h]; rfl), List.map_cons,
        List.filter_cons, if_pos h, ih]
    · rw [List.filterMap_cons_none (by simp only [if_neg h]), List.map_cons,
        List.filter_cons, if_neg h, ih]

lemma filterMap_congr_fn {α β : Type} (l : List α) (f g : α → Option β)
    (h : ∀ a ∈ l, f a = g a) : l.filterMap f = l.filterMap g := by
  induction l with
  | nil => rfl
  | cons a as ih =>
    rw [List.filterMap_cons, List.filterMap_cons, h a (List.mem_cons_self a as),
      ih (fun x hx => h x (List.mem_cons_of_mem a hx))]

lemma mem_insertDesc {z x : String × ScoreData} {l : List (String × ScoreData)} :
    z ∈ insertDesc x l ↔ z = x ∨ z ∈ l := by
  induction l with
  | nil => simp [insertDesc]
  | cons y ys ih =>
    unfold insertDesc
    by_cases h : x.2.score ≥ y.2.score
    · rw [if_pos h]
      simp
    · rw [if_neg h]
      simp only [List.mem_cons, ih]
      tauto

lemma insertDesc_pairwise (x : String × ScoreData) (l : List (String × ScoreData))
    (hl : l.Pairwise (fun a b => b.2.score ≤ a.2.score)) :
    (insertDesc x l).Pairwise (fun a b => b.2.score ≤ a.2.score) := by
  induction l with
  | nil => simp [insertDesc]
  | cons y ys ih =>
    unfold insertDesc
    by_cases h : x.2.score ≥ y.2.score
    · rw [if_pos h]
      refine List.Pairwise.cons ?_ hl
      intro z hz
      rcases List.mem_cons.mp hz with hz | hz
      · rw [hz]; exact h
      · exact le_trans (List.rel_of_pairwise_cons hl hz) h
    · rw [if_neg h]
      obtain ⟨hy, hys⟩ := List.pairwise_cons.mp hl
      refine List.Pairwise.cons ?_ (ih hys)
      intro z hz
      rcases mem_insertDesc.mp hz with hz | hz
      · rw [hz]
        exact le_of_lt (lt_of_not_le h)
      · exact hy z hz

lemma sortDesc_pairwise (l : List (String × ScoreData)) :
    (sortDesc l).Pairwise (fun a b => b.2.score ≤ a.2.score) := by
  induction l with
  | nil => exact List.Pairwise.nil
  | cons x xs ih => exact insertDesc_pairwise x (sortDesc xs) ih

lemma filter_insertDesc (x : String × ScoreData) (l : List (String × ScoreData)) (q : ℚ) :
    (insertDesc x l).filter (fun e => decide (e.2.score = q)) =
      if x.2.score = q then x :: l.filter (fun e => decide (e.2.score = q))
      else l.filter (fun e => decide (e.2.score = q)) := by
  induction l with
  | nil =>
    by_cases hx : x.2.score = q
    · simp [insertDesc, List.filter_cons, hx]
    · simp [insertDesc, List.filter_cons, hx]
  | cons y ys ih =>
    unfold insertDesc
    by_cases h : x.2.score ≥ y.2.score
    · rw [if_pos h]
      by_cases hx : x.2.score = q
      · rw [if_pos hx, List.filter_cons, if_pos (by simp [hx])]
      · rw [if_neg hx, List.filter_cons, if_neg (by simp [hx])]
    · rw [if_neg h]
      rw [List.filter_cons, List.filter_cons]
      by_cases hy : y.2.score = q
      · have hx : ¬ x.2.score = q := fun hx => h (ge_of_eq (hx.trans hy.symm))
        rw [if_pos (show decide (y.2.score = q) = true by simp [hy]),
          if_pos (show decide (y.2.score = q) = true by simp [hy]),
          ih, if_neg hx, if_neg hx]
      · rw [if_neg (show ¬ decide (y.2.score = q) = true by simp [hy]),
          if_neg (show ¬ decide (y.2.score = q) = true by simp [hy]), ih]

lemma sortDesc_stable (l : List (String × ScoreData)) (q : ℚ) :
    (sortDesc l).filter (fun e => decide (e.2.score = q)) =
      l.filter (fun e => decide (e.2.score = q)) := by
  induction l with
  | nil => rfl
  | cons x xs ih =>
    show (insertDesc x (sortDesc xs)).filter _ = _
    rw [filter_insertDesc, List.filter_cons]
    by_cases hx : x.2.score = q
    · rw [if_pos hx, if_pos (by simp [hx]), ih]
    · rw [if_neg hx, if_neg (by simp [hx]), ih]

/-! ### C5: taxonomy scoring, ranking, and top-3 emission -/

/-- **C5.** For every input text the classifier behaves as specified: the
emitted recommendations equal the spec-side pipeline — score each taxonomy
entry 0.4 per distinct matched keyword + 0.3 per distinct equipment term +
0.2 per distinct industry term (case-insensitive substring matches), cap at
1.0, keep non-zero entries, stable-sort descending (`sortDesc`), take the top
3, and attach a rationale listing the matched terms.  The second and third
conjuncts establish that `sortDesc` really is a descending stable sort (on
any list, equal-score entries keep their relative — declaration — order), and
the fourth caps the output at 3 recommendations. -/
theorem classifier_scores_ranks_top3 :
    (∀ text, (analyze_text text).recommended_products = spec_recommendations text) ∧
    (∀ l : List (String × ScoreData),
      (sortDesc l).Pairwise (fun a b => b.2.score ≤ a.2.score)) ∧
    (∀ (l : List (String × ScoreData)) (q : ℚ),
      (sortDesc l).filter (fun e => decide (e.2.score = q)) =
        l.filter (fun e => decide (e.2.score = q))) ∧
    (∀ text, (analyze_text text).recommended_products.length ≤ 3) := by
  have hmain : ∀ text, (analyze_text text).recommended_products = spec_recommendations text := by
    intro text
    have hlist : (product_keywords.foldl (analyzeStep (pyLower text)) ([], [], [])).1 =
        (product_keywords.map (fun p => (p.1,
            ScoreData.mk (spec_entry_score (pyLower text) p.2)
              (spec_entry_rationale (pyLower text) p.2)))).filter
          (fun x => decide (0 < x.2.score)) := by
      rw [analyze_fold (pyLower text) product_keywords ([], [], []), List.nil_append]
      have hcong : product_keywords.filterMap (fun p =>
            if (analyzeProduct (pyLower text) p.2).1 > 0 then
              some (p.1, ScoreData.mk (min (analyzeProduct (pyLower text) p.2).1 1)
                (analyzeProduct (pyLower text) p.2).2.2.2)
            else none) =
          product_keywords.filterMap (fun p =>
            if decide (0 < spec_entry_score (pyLower text) p.2) = true then
              some (p.1, ScoreData.mk (spec_entry_score (pyLower text) p.2)
                (spec_entry_rationale (pyLower text) p.2))
            else none) := by
        apply filterMap_congr_fn
        intro p hp
        rcases product_keywords_nodup p hp with ⟨hk, he2, hi2⟩
        have hsc : spec_entry_score (pyLower text) p.2 =
            min (analyzeProduct (pyLower text) p.2).1 1 :=
          spec_entry_score_eq _ _ hk he2 hi2
        have hrat : (analyzeProduct (pyLower text) p.2).2.2.2 =
            spec_entry_rationale (pyLower text) p.2 := by rw [analyzeProduct_eq]
        by_cases hpos : (analyzeProduct (pyLower text) p.2).1 > 0
        · rw [if_pos hpos, if_pos (show decide (0 < spec_entry_score (pyLower text) p.2) = true
            by rw [hsc]; exact decide_eq_true (lt_min hpos one_pos))]
          rw [hsc, hrat]
        · rw [if_neg hpos, if_neg (show ¬ decide (0 < spec_entry_score (pyLower text) p.2) = true
            by rw [hsc]; simp only [decide_eq_true_eq, lt_min_iff]; exact fun hc => hpos hc.1)]
      rw [hcong]
      exact filterMap_if_eq_filter_map
        (fun p : String × ProductData => (p.1,
          ScoreData.mk (spec_entry_score (pyLower text) p.2)
            (spec_entry_rationale (pyLower text) p.2)))
        (fun x : String × ScoreData => decide (0 < x.2.score))
        product_keywords
    show ((sortDesc (product_keywords.foldl (analyzeStep (pyLower text)) ([], [], [])).1).take 3).map
        (fun pd => Recommendation.mk pd.1 (roundTo2 pd.2.score)
          (String.intercalate "; " pd.2.reasons)) = _
    rw [hlist]
    rfl
  refine ⟨hmain, sortDesc_pairwise, sortDesc_stable, ?_⟩
  intro text
  show (((sortDesc (product_keywords.foldl (analyzeStep (pyLower text)) ([], [], [])).1).take 3).map
      (fun pd => Recommendation.mk pd.1 (roundTo2 pd.2.score)
        (String.intercalate "; " pd.2.reasons))).length ≤ 3
  rw [List.length_map, List.length_take]
  exact min_le_left 3 _

/-! ### Rounding and bound lemmas -/

lemma le_bRound {n : ℤ} {q : ℚ} (h : (n : ℚ) ≤ q) : n ≤ bRound q := by
  unfold bRound
  have hfl : n ≤ ⌊q⌋ := Int.le_floor.mpr h
  split_ifs <;> omega

lemma bRound_le {n : ℤ} {q : ℚ} (h : q ≤ (n : ℚ)) : bRound q ≤ n := by
  unfold bRound
  have hfl : ⌊q⌋ ≤ n := by
    have h2 := Int.floor_le_floor h
    simpa using h2
  have hq : ⌊q⌋ ≤ n → (⌊q⌋ : ℚ) ≤ q → q - ⌊q⌋ ≥ 1/2 → ⌊q⌋ < n := by
    intro _ _ hhalf
    by_contra hcon
    have hge : n ≤ ⌊q⌋ := by omega
    have : (n : ℚ) ≤ ⌊q⌋ := by exact_mod_cast hge
    linarith
  split_ifs with h1 h2 h3
  · exact hfl
  · have := hq hfl (Int.floor_le q) (by linarith)
    omega
  · exact hfl
  · have := hq hfl (Int.floor_le q) (by linarith)
    omega

lemma roundTo2_nonneg {q : ℚ} (h : 0 ≤ q) : 0 ≤ roundTo2 q := by
  unfold roundTo2
  have h2 : (0 : ℤ) ≤ bRound (100 * q) := le_bRound (by push_cast; linarith)
  have h3 : (0 : ℚ) ≤ (bRound (100 * q) : ℚ) := by exact_mod_cast h2
  positivity

lemma roundTo2_le_cast {q : ℚ} {n : ℤ} (h : q ≤ (n : ℚ)) : roundTo2 q ≤ (n : ℚ) := by
  unfold roundTo2
  have h2 : bRound (100 * q) ≤ 100 * n := bRound_le (by push_cast; linarith)
  have h3 : (bRound (100 * q) : ℚ) ≤ ((100 * n : ℤ) : ℚ) := by exact_mod_cast h2
  rw [div_le_iff₀ (by norm_num : (0:ℚ) < 100)]
  push_cast at h3 ⊢
  linarith

lemma le_foldl_max (text : String) (l : List (String × ℚ)) :
    ∀ a : ℚ, a ≤ l.foldl (fun m kv => if strContains text kv.1 then max m kv.2 else m) a := by
  induction l with
  | nil => intro a; simp
  | cons kv l ih =>
    intro a
    rw [List.foldl_cons]
    refine le_trans ?_ (ih _)
    by_cases h : strContains text kv.1
    · rw [if_pos h]; exact le_max_left a kv.2
    · rw [if_neg h]

lemma foldl_max_le (text : String) (c : ℚ) (l : List (String × ℚ)) :
    ∀ a : ℚ, a ≤ c → (∀ kv ∈ l, kv.2 ≤ c) →
      l.foldl (fun m kv => if strContains text kv.1 then max m kv.2 else m) a ≤ c := by
  induction l with
  | nil => intro a ha _; simpa using ha
  | cons kv l ih =>
    intro a ha hl
    rw [List.foldl_cons]
    refine ih _ ?_ (fun kv2 h2 => hl kv2 (List.mem_cons_of_mem kv h2))
    by_cases h : strContains text kv.1
    · rw [if_pos h]
      exact max_le ha (hl kv (List.mem_cons_self kv l))
    · rw [if_neg h]
      exact ha

lemma urgency_bounds (text : String) :
    0 ≤ calculate_urgency text ∧ calculate_urgency text ≤ 1 := by
  constructor
  · exact le_foldl_max text _ 0
  · refine foldl_max_le text 1 _ 0 (by norm_num) ?_
    intro kv hkv
    fin_cases hkv <;> norm_num

lemma mem_sortDesc {z : String × ScoreData} {l : List (String × ScoreData)} :
    z ∈ sortDesc l ↔ z ∈ l := by
  induction l with
  | nil => simp [sortDesc]
  | cons x xs ih =>
    show z ∈ insertDesc x (sortDesc xs) ↔ _
    rw [mem_insertDesc, ih]
    simp [eq_comm]

lemma analyze_confidence_bounds (text : String) :
    ∀ r ∈ (analyze_text text).recommended_products, 0 ≤ r.confidence ∧ r.confidence ≤ 1 := by
  intro r hr
  have hr2 : r ∈ ((sortDesc (product_keywords.foldl (analyzeStep (pyLower text))
      ([], [], [])).1).take 3).map (fun pd => Recommendation.mk pd.1 (roundTo2 pd.2.score)
        (String.intercalate "; " pd.2.reasons)) := hr
  obtain ⟨pd, hpd, hrpd⟩ := List.mem_map.mp hr2
  have hpd2 : pd ∈ (product_keywords.foldl (analyzeStep (pyLower text)) ([], [], [])).1 :=
    mem_sortDesc.mp (List.mem_of_mem_take hpd)
  rw [analyze_fold (pyLower text) product_keywords ([], [], []), List.nil_append] at hpd2
  obtain ⟨p, hp, hgp⟩ := List.mem_filterMap.mp hpd2
  by_cases hpos : (analyzeProduct (pyLower text) p.2).1 > 0
  · rw [if_pos hpos] at hgp
    have hpd3 : pd = (p.1, ScoreData.mk (min (analyzeProduct (pyLower text) p.2).1 1)
        (analyzeProduct (pyLower text) p.2).2.2.2) := (Option.some.injEq .. ▸ hgp).symm
    have hscore1 : 0 ≤ pd.2.score := by
      rw [hpd3]
      exact le_of_lt (lt_min hpos one_pos)
    have hscore2 : pd.2.score ≤ 1 := by
      rw [hpd3]
      exact min_le_right _ _
    have hconf : r.confidence = roundTo2 pd.2.score := by rw [← hrpd]
    rw [hconf]
    exact ⟨roundTo2_nonneg hscore1,
      by simpa using roundTo2_le_cast (n := 1) (by simpa using hscore2)⟩
  · rw [if_neg hpos] at hgp
    exact absurd hgp (by simp)

/-! ### C6: the composite lead score formula and its range -/

/-- **C6.** `calculate_lead_score` equals the spec's weighted sum — mean
product confidence × 40 (0 with no recommendations), intent bucket
(high=30, medium=20, low=10), urgency × 20, and size bucket (enterprise=10,
large=8, medium=6, small=4, any other size 6) — clamped to 100; and for every
analysis the pipeline actually produces the resulting score lies in [0, 100]. -/
theorem lead_score_formula_and_range :
    (∀ analysis size, calculate_lead_score analysis size = spec_lead_score analysis size) ∧
    (∀ text size, 0 ≤ calculate_lead_score (analyze_text text) size ∧
      calculate_lead_score (analyze_text text) size ≤ 100) := by
  constructor
  · intro analysis size
    unfold calculate_lead_score spec_lead_score mean_confidence intent_bucket size_bucket
    by_cases h : analysis.recommended_products = [] <;> simp [h, ite_self]
  · intro text size
    have heq : calculate_lead_score (analyze_text text) size =
        roundTo2 (min ((if (analyze_text text).recommended_products.length ≠ 0 then
            ((analyze_text text).recommended_products.map (fun r => r.confidence)).sum /
              ((analyze_text text).recommended_products.length : ℚ) * 40
          else 0)
          + (if (analyze_text text).intent_strength = "high" then 30
             else if (analyze_text text).intent_strength = "medium" then 20
             else if (analyze_text text).intent_strength = "low" then 10 else 10)
          + (analyze_text text).urgency_score * 20
          + (if size = "enterprise" then (10:ℚ) else if size = "large" then 8
             else if size = "medium" then 6 else if size = "small" then 4 else 6)) 100) := rfl
    have hconf : 0 ≤ (if (analyze_text text).recommended_products.length ≠ 0 then
          ((analyze_text text).recommended_products.map (fun r => r.confidence)).sum /
            ((analyze_text text).recommended_products.length : ℚ) * 40
        else 0) ∧
        (if (analyze_text text).recommended_products.length ≠ 0 then
          ((analyze_text text).recommended_products.map (fun r => r.confidence)).sum /
            ((analyze_text text).recommended_products.length : ℚ) * 40
        else 0) ≤ 40 := by
      by_cases h : (analyze_text text).recommended_products.length ≠ 0
      · rw [if_pos h]
        have hlen : (0:ℚ) < ((analyze_text text).recommended_products.length : ℚ) := by
          have : 0 < (analyze_text text).recommended_products.length := Nat.pos_of_ne_zero h
          exact_mod_cast this
        have hsum0 : 0 ≤ ((analyze_text text).recommended_products.map (fun r => r.confidence)).sum := by
          apply List.sum_nonneg
          intro x hx
          obtain ⟨r, hr, hrx⟩ := List.mem_map.mp hx
          exact hrx ▸ (analyze_confidence_bounds text r hr).1
        have hsum1 : ((analyze_text text).recommended_products.map (fun r => r.confidence)).sum ≤
            ((analyze_text text).recommended_products.length : ℚ) := by
          have h1 := List.sum_le_card_nsmul
            ((analyze_text text).recommended_products.map (fun r => r.confidence)) 1 ?_
          · simpa using h1
          · intro x hx
            obtain ⟨r, hr, hrx⟩ := List.mem_map.mp hx
            exact hrx ▸ (analyze_confidence_bounds text r hr).2
        constructor
        · positivity
        · have hdiv : ((analyze_text text).recommended_products.map (fun r => r.confidence)).sum /
              ((analyze_text text).recommended_products.length : ℚ) ≤ 1 :=
            (div_le_one hlen).mpr hsum1
          nlinarith [hdiv, hlen]
      · rw [if_neg h]
        norm_num
    have hint : (10:ℚ) ≤ (if (analyze_text text).intent_strength = "high" then 30
          else if (analyze_text text).intent_strength = "medium" then 20
          else if (analyze_text text).intent_strength = "low" then 10 else 10) ∧
        (if (analyze_text text).intent_strength = "high" then (30:ℚ)
          else if (analyze_text text).intent_strength = "medium" then 20
          else if (analyze_text text).intent_strength = "low" then 10 else 10) ≤ 30 := by
      constructor <;> split_ifs <;> norm_num
    have hurg : 0 ≤ (analyze_text text).urgency_score ∧
        (analyze_text text).urgency_score ≤ 1 := by
      have : (analyze_text text).urgency_score = calculate_urgency (pyLower text) := rfl
      rw [this]
      exact urgency_bounds (pyLower text)
    have hsize : (4:ℚ) ≤ (if size = "enterprise" then (10:ℚ) else if size = "large" then 8
          else if size = "medium" then 6 else if size = "small" then 4 else 6) ∧
        (if size = "enterprise" then (10:ℚ) else if size = "large" then 8
          else if size = "medium" then 6 else if size = "small" then 4 else 6) ≤ 10 := by
      constructor <;> split_ifs <;> norm_num
    rw [heq]
    constructor
    · apply roundTo2_nonneg
      apply le_min
      · nlinarith [hconf.1, hint.1, hurg.1, hsize.1]
      · norm_num
    · have h100 : min ((if (analyze_text text).recommended_products.length ≠ 0 then
            ((analyze_text text).recommended_products.map (fun r => r.confidence)).sum /
              ((analyze_text text).recommended_products.length : ℚ) * 40
          else 0)
          + (if (analyze_text text).intent_strength = "high" then 30
             else if (analyze_text text).intent_strength = "medium" then 20
             else if (analyze_text text).intent_strength = "low" then 10 else 10)
          + (analyze_text text).urgency_score * 20
          + (if size = "enterprise" then (10:ℚ) else if size = "large" then 8
             else if size = "medium" then 6 else if size = "small" then 4 else 6)) 100
          ≤ ((100 : ℤ) : ℚ) := by
        push_cast
        exact min_le_right _ _
      have := roundTo2_le_cast h100
      simpa using this

end HPCL
